import Mathlib

/-!
Shallow embedding of `robotidy/disablers.py`, the suppression engine of the
robotidy formatter.  Python classes become Lean structures and their methods
become functions that thread the state explicitly.  Line numbers are
integers, matching Python `int`; Python dictionaries become
insertion-ordered association lists, reproducing `dict` iteration order and
the insert-if-absent idiom used by the source.
-/

namespace Disablers

/-- Python regex `\s` restricted to the ASCII range (all inputs of interest
are ASCII): the characters `re` treats as whitespace. -/
def isWS (c : Char) : Bool :=
  c = ' ' || c = '\t' || c = '\n' || c = '\r' || c = '\x0b' || c = '\x0c'

/-- Python regex `\w` restricted to the ASCII range: word characters. -/
def isWord (c : Char) : Bool :=
  ('a' ≤ c && c ≤ 'z') || ('A' ≤ c && c ≤ 'Z') || ('0' ≤ c && c ≤ '9') || c = '_'

/-- Python `str.strip()`: remove leading and trailing whitespace. -/
def pyStrip (cs : List Char) : String :=
  (((cs.dropWhile isWS).reverse.dropWhile isWS).reverse).asString

/-- Python `str.split(",")`: split on every comma; `"".split(",") == [""]`. -/
def splitComma : List Char → List (List Char)
  | [] => [[]]
  | c :: rest =>
    if c = ',' then [] :: splitComma rest
    else
      match splitComma rest with
      | [] => [[c]]
      | g :: gs => (c :: g) :: gs

/-- Match a literal sequence of characters, returning the remainder on
success (used for the fixed parts of the disabler regular expression). -/
def matchLit : List Char → List Char → Option (List Char)
  | [], cs => some cs
  | _ :: _, [] => none
  | p :: ps, c :: cs => if c = p then matchLit ps cs else none

/-- Result of `RegisterDisablers.disabler_pattern.match`: the named groups of
`\s*#\s?robotidy:\s?(?P<disabler>on|off) ?=?(?P<transformers>[\w,\s]*)`.
`matched_eq` records whether the optional `=?` consumed an `=`; this is
exactly the condition `"=" in match.group(0)` used by the source, since no
other element of the pattern can contribute an `=` to the overall match. -/
structure DisablerMatch where
  disabler : String
  matched_eq : Bool
  transformers : List Char
deriving DecidableEq, Repr

/-- `re.match` of the pattern
`\s*#\s?robotidy:\s?(?P<disabler>on|off) ?=?(?P<transformers>[\w,\s]*)`
against the start of the text.  Each quantifier here is deterministic: the
greedy `\s*` is followed by the non-whitespace `#`; each `\s?` is followed
by a literal starting with a non-whitespace character, so consuming a
whitespace character is forced whenever one is present; the alternation
tries `on` before `off` (Python's leftmost preference) and everything after
the action group can match the empty string, so no backtracking into it can
occur. -/
def disablerPatternMatch (s : List Char) : Option DisablerMatch :=
  match s.dropWhile isWS with
  | [] => none
  | c0 :: s1 =>
    if c0 = '#' then
      let s2 := match s1 with
        | c :: rest => if isWS c then rest else s1
        | [] => s1
      match matchLit "robotidy:".data s2 with
      | none => none
      | some s3 =>
        let s4 := match s3 with
          | c :: rest => if isWS c then rest else s3
          | [] => s3
        let act? : Option (String × List Char) :=
          match matchLit "on".data s4 with
          | some rest => some ("on", rest)
          | none =>
            match matchLit "off".data s4 with
            | some rest => some ("off", rest)
            | none => none
        match act? with
        | none => none
        | some (act, s5) =>
          let s6 := match s5 with
            | ' ' :: rest => rest
            | _ => s5
          let (hasEq, s7) := match s6 with
            | '=' :: rest => (true, rest)
            | _ => (false, s6)
          some ⟨act, hasEq, s7.takeWhile (fun c => isWord c || c = ',' || isWS c)⟩
    else none

/-- `ALL_TRANSFORMERS = "all"`. -/
def ALL_TRANSFORMERS : String := "all"

/-- `RegisterDisablers.get_disabler`: `None` for an empty comment value,
otherwise the regex match (which may itself fail). -/
def get_disabler (value : List Char) : Option DisablerMatch :=
  if value.isEmpty then none
  else disablerPatternMatch value

/-- `RegisterDisablers.get_disabler_transformers`: the wildcard when there is
no `=` in the match or the captured transformers group is empty; otherwise
the comma-separated names, each stripped, empty entries dropped. -/
def get_disabler_transformers (m : DisablerMatch) : List String :=
  if m.transformers.isEmpty || !m.matched_eq then [ALL_TRANSFORMERS]
  else ((splitComma m.transformers).map pyStrip).filter (fun t => t ≠ "")

/-! ### Association lists standing in for Python dictionaries -/

/-- Dictionary lookup: first binding of the key, if any. -/
def alistGet (k : String) : List (String × α) → Option α
  | [] => none
  | (k', v) :: rest => if k' = k then some v else alistGet k rest

/-- Dictionary assignment `d[k] = v`: update the existing binding in place,
or append a new binding at the end (Python dicts preserve insertion order). -/
def alistSet (k : String) (v : α) : List (String × α) → List (String × α)
  | [] => [(k, v)]
  | (k', v') :: rest => if k' = k then (k, v) :: rest else (k', v') :: alistSet k v rest

/-! ### `DisabledLines` -/

/-- The per-target registry `DisabledLines`.  `file_end` is an `Int` rather
than an optional: the only instance whose methods are ever exercised is the
one `visit_File` builds with `file_end = node.end_lineno`.  The
`disabled_headers` set is kept as a duplicate-free list. -/
structure DisabledLines where
  start_line : Option Int
  end_line : Option Int
  file_end : Int
  lines : List (Int × Int)
  disabled_headers : List Int
  disabled_whole : Bool
deriving DecidableEq, Repr

/-- `DisabledLines.__init__`. -/
def DisabledLines.init (s e : Option Int) (fe : Int) : DisabledLines :=
  ⟨s, e, fe, [], [], false⟩

/-- `DisabledLines.add_disabler`: append the interval. -/
def DisabledLines.add_disabler (d : DisabledLines) (s e : Int) : DisabledLines :=
  { d with lines := d.lines ++ [(s, e)] }

/-- `DisabledLines.add_disabled_header`: add the line to the header set. -/
def DisabledLines.add_disabled_header (d : DisabledLines) (l : Int) : DisabledLines :=
  if l ∈ d.disabled_headers then d else { d with disabled_headers := d.disabled_headers ++ [l] }

/-- Python truthiness of an optional integer: `None` and `0` are falsy. -/
def optTruthy : Option Int → Bool
  | none => false
  | some n => n != 0

/-- `DisabledLines.parse_global_disablers`: synthesize the wildcard
intervals for the lines outside the `[start_line, end_line]` window.
`if not self.start_line: return`; a falsy `end_line` falls back to
`start_line`; the head interval is emitted only when `start_line > 1`, the
tail interval only when the window's end is below `file_end`. -/
def DisabledLines.parse_global_disablers (d : DisabledLines) : DisabledLines :=
  if !optTruthy d.start_line then d
  else
    let s := d.start_line.getD 0
    let e := if optTruthy d.end_line then d.end_line.getD 0 else s
    let d1 := if s > 1 then d.add_disabler 1 (s - 1) else d
    if e < d1.file_end then d1.add_disabler (e + 1) d1.file_end else d1

/-- Stable insertion of an interval into a list sorted by start line: the
new element goes after every element whose start is less than or equal. -/
def insertByStart (x : Int × Int) : List (Int × Int) → List (Int × Int)
  | [] => [x]
  | y :: rest => if y.1 ≤ x.1 then y :: insertByStart x rest else x :: y :: rest

/-- `DisabledLines.sort_disablers`: Python's `sorted(key=lambda x: x[0])` is
a stable sort by start line, realised here as a stable insertion sort
(elements are inserted left to right, each placed after existing elements
with an equal start). -/
def DisabledLines.sort_disablers (d : DisabledLines) : DisabledLines :=
  { d with lines := d.lines.foldl (fun acc x => insertByStart x acc) [] }

/-- `DisabledLines.is_header_disabled`. -/
def DisabledLines.is_header_disabled (d : DisabledLines) (l : Int) : Bool :=
  l ∈ d.disabled_headers

/-- A node as seen by the query API: its start and end line. -/
structure NodeRef where
  lineno : Int
  end_lineno : Int
deriving DecidableEq, Repr

/-- The full-match scan of `DisabledLines.is_node_disabled`: return at the
first interval whose end line covers the node's effective end line, with
result `start_line <= node.lineno`. -/
def scanFull : List (Int × Int) → Int → Int → Bool
  | [], _, _ => false
  | (s, e) :: rest, nl, nel =>
    if nel ≤ e then decide (s ≤ nl) else scanFull rest nl nel

/-- `DisabledLines.is_node_disabled`.  The `not node` guard of the source
cannot fire in this model (nodes are never `None`); the `not self.lines`
guard is kept.  The effective end line is `max(lineno, end_lineno)`, the
source's workaround for transformers setting `-1` as `end_lineno`. -/
def DisabledLines.is_node_disabled (d : DisabledLines) (node : NodeRef) (full_match : Bool) : Bool :=
  if d.lines.isEmpty then false
  else
    let end_lineno := max node.lineno node.end_lineno
    if full_match then scanFull d.lines node.lineno end_lineno
    else d.lines.any fun se => decide (node.lineno ≤ se.2) && decide (end_lineno ≥ se.1)

/-! ### `DisablersInFile` -/

/-- `DisablersInFile`: one `DisabledLines` per encountered target, seeded
with the wildcard entry. -/
structure DisablersInFile where
  start_line : Option Int
  end_line : Option Int
  file_end : Int
  disablers : List (String × DisabledLines)
deriving DecidableEq, Repr

/-- `DisablersInFile.__init__`. -/
def DisablersInFile.init (s e : Option Int) (fe : Int) : DisablersInFile :=
  ⟨s, e, fe, [(ALL_TRANSFORMERS, DisabledLines.init s e fe)]⟩

/-- The wildcard entry `self.disablers[ALL_TRANSFORMERS]`; it is created by
the constructor and never removed, so the fallback value is never used. -/
def DisablersInFile.allEntry (d : DisablersInFile) : DisabledLines :=
  (alistGet ALL_TRANSFORMERS d.disablers).getD (DisabledLines.init d.start_line d.end_line d.file_end)

/-- `DisablersInFile.parse_global_disablers`: delegates to the wildcard
entry. -/
def DisablersInFile.parse_global_disablers (d : DisablersInFile) : DisablersInFile :=
  { d with disablers := alistSet ALL_TRANSFORMERS d.allEntry.parse_global_disablers d.disablers }

/-- `DisablersInFile.sort_disablers`: sort every target's interval list. -/
def DisablersInFile.sort_disablers (d : DisablersInFile) : DisablersInFile :=
  { d with disablers := d.disablers.map (fun kv => (kv.1, kv.2.sort_disablers)) }

/-- `DisablersInFile.add_disabler`: lazily create the target's registry,
append the interval, and promote the whole-file flag when `file_level` is
set. -/
def DisablersInFile.add_disabler (d : DisablersInFile) (transformer : String)
    (s e : Int) (file_level : Bool) : DisablersInFile :=
  let entry := (alistGet transformer d.disablers).getD
    (DisabledLines.init d.start_line d.end_line d.file_end)
  let entry := entry.add_disabler s e
  let entry := if file_level then { entry with disabled_whole := file_level } else entry
  { d with disablers := alistSet transformer entry d.disablers }

/-- `DisablersInFile.add_disabled_header`. -/
def DisablersInFile.add_disabled_header (d : DisablersInFile) (transformer : String)
    (l : Int) : DisablersInFile :=
  let entry := (alistGet transformer d.disablers).getD
    (DisabledLines.init d.start_line d.end_line d.file_end)
  { d with disablers := alistSet transformer (entry.add_disabled_header l) d.disablers }

/-- `DisablersInFile.is_disabled_in_file`: the wildcard whole-file flag, or
the named target's own flag. -/
def DisablersInFile.is_disabled_in_file (d : DisablersInFile) (transformer : String) : Bool :=
  if d.allEntry.disabled_whole then true
  else
    match alistGet transformer d.disablers with
    | none => false
    | some dl => dl.disabled_whole

/-- `DisablersInFile.is_header_disabled`. -/
def DisablersInFile.is_header_disabled (d : DisablersInFile) (transformer : String)
    (l : Int) : Bool :=
  if d.allEntry.is_header_disabled l then true
  else
    match alistGet transformer d.disablers with
    | none => false
    | some dl => dl.is_header_disabled l

/-- `DisablersInFile.is_node_disabled`: the wildcard entry first, then the
named target's entry. -/
def DisablersInFile.is_node_disabled (d : DisablersInFile) (transformer : String)
    (node : NodeRef) (full_match : Bool) : Bool :=
  if d.allEntry.is_node_disabled node full_match then true
  else
    match alistGet transformer d.disablers with
    | none => false
    | some dl => dl.is_node_disabled node full_match

/-! ### The block tree supplied by `robot.api.parsing`

The parser (an external collaborator) hands `RegisterDisablers` a tree of
blocks and statements with 1-based inclusive line numbers.  Statement kinds
only distinguish how `ModelVisitor` dispatches them: `SectionHeader` has its
own visitor, `Comment` statements take the full-line branch of
`visit_Statement`, every other statement takes the inline branch.  Block
kinds other than `Try` all share `visit_TestCase` (the source aliases
`visit_Keyword = visit_Section = visit_For = visit_ForLoop = visit_If =
visit_While = visit_TestCase`); `commentSection` marks instances of
`CommentSection`, which `visit_File` treats specially in first position.
A block's `end_lineno` is the line of the last statement in its subtree
(so for the head of a `TRY`/`EXCEPT`/`FINALLY` chain, whose `next` and
`end` fields belong to its subtree, it is the line of the final `END`).
`visit_Try` never traverses a statement header's children (a vacuous
`generic_visit`) nor the chain's `end` statement, so neither is modelled
as a child there. -/

/-- Token types relevant to the engine. -/
inductive TokType where
  | SEPARATOR
  | COMMENT
  | DATA
deriving DecidableEq, Repr

/-- A lexer token: type, text and column offset. -/
structure RToken where
  type : TokType
  value : List Char
  col_offset : Int
deriving DecidableEq, Repr

/-- `is_line_start`: skip separator tokens; the first other token decides by
`col_offset == 0`; an exhausted token list yields `False`. -/
def is_line_start : List RToken → Bool
  | [] => false
  | t :: rest =>
    match t.type with
    | .SEPARATOR => is_line_start rest
    | _ => decide (t.col_offset = 0)

/-- `node.get_tokens(Token.COMMENT)`. -/
def commentTokens (tokens : List RToken) : List RToken :=
  tokens.filter (fun t => t.type = .COMMENT)

/-- Statement dispatch kinds (see the section comment above). -/
inductive StmtKind where
  | sectionHeader
  | comment
  | other
deriving DecidableEq, Repr

/-- Scope-bearing block kinds; all are handled by the shared
`visit_TestCase` body. -/
inductive BlockKind where
  | commentSection
  | section
  | testCase
  | keyword
  | forBlock
  | whileBlock
  | ifBlock
deriving DecidableEq, Repr

/-- A node of the document tree.  For `block`, `children` lists the header
statement followed by the body, in source order, exactly what
`generic_visit` iterates over.  For `tryB`, `body` is the branch's own body
and `nxt` the following branch of the chain. -/
inductive RNode : Type where
  | stmt (kind : StmtKind) (tokens : List RToken) (lineno end_lineno : Int) : RNode
  | block (kind : BlockKind) (children : List RNode) (lineno end_lineno : Int) : RNode
  | tryB (body : List RNode) (nxt : Option RNode) (lineno end_lineno : Int) : RNode

/-- A file: its sections and its `end_lineno`. -/
structure RFile where
  sections : List RNode
  end_lineno : Int

/-- `node.lineno` of a tree node. -/
def RNode.lineno : RNode → Int
  | .stmt _ _ l _ => l
  | .block _ _ l _ => l
  | .tryB _ _ l _ => l

/-- `isinstance(section, CommentSection)`. -/
def isCommentSection : RNode → Bool
  | .block .commentSection _ _ _ => true
  | _ => false

/-! ### `RegisterDisablers` -/

/-- One scope frame: target name to pending start line, `0` meaning no
disabler open (the source seeds every frame with `{ALL_TRANSFORMERS: 0}`). -/
abbrev Frame := List (String × Int)

/-- The mutable state of a `RegisterDisablers` instance.  `start_line` and
`end_line` are the constructor arguments; `disablers_in_scope` is the scope
stack, newest frame last, exactly the Python list. -/
structure VState where
  start_line : Option Int
  end_line : Option Int
  disablers : DisablersInFile
  disablers_in_scope : List Frame
  file_level_disablers : Bool
deriving DecidableEq, Repr

/-- `self.disablers_in_scope.append({ALL_TRANSFORMERS: 0})`. -/
def pushFrame (v : VState) : VState :=
  { v with disablers_in_scope := v.disablers_in_scope ++ [[(ALL_TRANSFORMERS, 0)]] }

/-- `RegisterDisablers.close_disabler`: pop the newest frame and register an
interval ending at `end_line` for every target with a truthy pending start.
The traversal never closes with an empty stack (Python would raise); that
case is a no-op here. -/
def closeDisabler (v : VState) (end_line : Int) : VState :=
  match v.disablers_in_scope.getLast? with
  | none => v
  | some frame =>
    let v := { v with disablers_in_scope := v.disablers_in_scope.dropLast }
    frame.foldl
      (fun v te =>
        if te.2 = 0 then v
        else { v with
          disablers := v.disablers.add_disabler te.1 te.2 end_line v.file_level_disablers })
      v

/-- The frame numbered `index` of `visit_Statement`: `0` (the oldest) for a
line-start comment, `-1` (the newest) otherwise. -/
def frameAt (stack : List Frame) (lineStart : Bool) : Option Frame :=
  if lineStart then stack.head? else stack.getLast?

/-- Write back the frame read by `frameAt` at the same index. -/
def setFrameAt (stack : List Frame) (lineStart : Bool) (f : Frame) : List Frame :=
  if lineStart then
    match stack with
    | [] => []
    | _ :: rest => f :: rest
  else stack.dropLast ++ [f]

/-- The per-transformer loop of `visit_Statement`'s full-line branch.  An
`on` directive with an open pending start registers the interval up to the
comment's line and clears the pending start; an `off` directive records the
comment's line as pending unless one is already open.  The stack is never
empty when a comment statement is visited (comments live inside sections);
that case is a no-op here. -/
def applyFullLine (v : VState) (isOn lineStart : Bool) (lineno : Int)
    (transformers : List String) : VState :=
  transformers.foldl
    (fun v t =>
      match frameAt v.disablers_in_scope lineStart with
      | none => v
      | some frame =>
        if isOn then
          if (alistGet t frame).getD 0 = 0 then v
          else
            let s := (alistGet t frame).getD 0
            let v := { v with disablers := v.disablers.add_disabler t s lineno false }
            { v with disablers_in_scope := setFrameAt v.disablers_in_scope lineStart (alistSet t 0 frame) }
        else
          if (alistGet t frame).getD 0 = 0 then
            { v with disablers_in_scope := setFrameAt v.disablers_in_scope lineStart (alistSet t lineno frame) }
          else v)
    v

/-- The inline branch of `visit_Statement`: every comment token is checked,
and each `off` directive registers, per target, the interval spanning the
statement's own lines. -/
def inlineComments (v : VState) (comments : List RToken) (lineno end_lineno : Int) : VState :=
  comments.foldl
    (fun v c =>
      match get_disabler c.value with
      | none => v
      | some m =>
        if m.disabler = "off" then
          (get_disabler_transformers m).foldl
            (fun v t => { v with disablers := v.disablers.add_disabler t lineno end_lineno false })
            v
        else v)
    v

/-- `visit_SectionHeader`: scan the header's comment tokens; the first one
holding an `off` directive marks the header line disabled for the
directive's targets, then the loop breaks. -/
def sectionHeaderComments (v : VState) (comments : List RToken) (lineno : Int) : VState :=
  match comments with
  | [] => v
  | c :: rest =>
    match get_disabler c.value with
    | none => sectionHeaderComments v rest lineno
    | some m =>
      if m.disabler = "off" then
        (get_disabler_transformers m).foldl
          (fun v t => { v with disablers := v.disablers.add_disabled_header t lineno })
          v
      else sectionHeaderComments v rest lineno

/-- Statement dispatch: `visit_SectionHeader` for section headers,
`visit_Statement`'s full-line branch for `Comment` statements (a `Comment`
always carries a comment token; a missing one is a no-op here where Python
would raise), and its inline branch for every other statement. -/
def visitStmt (v : VState) (kind : StmtKind) (tokens : List RToken)
    (lineno end_lineno : Int) : VState :=
  match kind with
  | .sectionHeader => sectionHeaderComments v (commentTokens tokens) lineno
  | .comment =>
    match (commentTokens tokens).head? with
    | none => v
    | some c =>
      match get_disabler c.value with
      | none => v
      | some m =>
        applyFullLine v (m.disabler = "on") (is_line_start tokens) lineno
          (get_disabler_transformers m)
  | .other => inlineComments v (commentTokens tokens) lineno end_lineno

mutual

/-- Visitor dispatch on one node.  A `block` runs the shared
`visit_TestCase` body: push a frame, visit the children, close the frame at
the block's own end line.  A `tryB` runs `visit_Try`: push a frame, visit
the head branch's body, close at the head's `end_lineno` — then run the
`while tail.next:` loop, whose first iteration (with `tail` still the head
node) is written out here so that it revisits the head's own body and
closes at `node.next.lineno - 1`, before walking the rest of the chain. -/
def visitNode (v : VState) : RNode → VState
  | .stmt kind tokens l e => visitStmt v kind tokens l e
  | .block _ children _ e => closeDisabler (visitList (pushFrame v) children) e
  | .tryB body nxt _ e =>
    let v1 := closeDisabler (visitList (pushFrame v) body) e
    match nxt with
    | none => v1
    | some n2 =>
      visitTryTail (closeDisabler (visitList (pushFrame v1) body) (n2.lineno - 1)) n2

/-- `for statement in ...: self.visit(statement)`. -/
def visitList (v : VState) : List RNode → VState
  | [] => v
  | n :: rest => visitList (visitNode v n) rest

/-- The continuation of the `while tail.next:` loop of `visit_Try` from the
second iteration on: as long as the current branch has a successor, push a
frame, visit the current branch's body, and close at one line before the
successor's start (`tail.next.lineno - 1`; the `else tail.end_lineno` arm
of the source is dead inside the loop).  The loop stops at the last branch
without visiting its body.  A chain member that is not a `tryB` cannot
occur in parser output and ends the walk. -/
def visitTryTail (v : VState) : RNode → VState
  | .tryB body (some nxt) _ _ =>
    visitTryTail (closeDisabler (visitList (pushFrame v) body) (nxt.lineno - 1)) nxt
  | _ => v

end

/-- The per-section loop of `visit_File`: before each section,
`file_level_disablers` is set when the section is the first one and a
`CommentSection`; the section is then visited (the direct call
`self.visit_Section(section)` coincides with dispatch, since every section
is a `Section` block). -/
def visitSections (v : VState) : List RNode → Nat → VState
  | [], _ => v
  | s :: rest, index =>
    let v := { v with file_level_disablers := index = 0 && isCommentSection s }
    visitSections (visitNode v s) rest (index + 1)

/-- `RegisterDisablers.visit_File`: reset the flag, build a fresh
`DisablersInFile` carrying `node.end_lineno`, synthesize the global
disablers, visit the sections, and finally sort every interval list. -/
def visitFile (v : VState) (f : RFile) : VState :=
  let v := { v with
    file_level_disablers := false,
    disablers := (DisablersInFile.init v.start_line v.end_line f.end_lineno).parse_global_disablers }
  let v := visitSections v f.sections 0
  { v with disablers := v.disablers.sort_disablers }

/-- A fresh `RegisterDisablers(start_line, end_line)` run on one file.  The
constructor's throwaway `DisablersInFile` (replaced by `visit_File` before
any use) is created with `file_end` zero; the scope stack starts empty. -/
def runRegisterDisablers (start_line end_line : Option Int) (f : RFile) : VState :=
  visitFile
    ⟨start_line, end_line, DisablersInFile.init start_line end_line 0, [], false⟩
    f

/-- The interval list registered for a target, empty when the target has no
entry. -/
def linesOf (d : DisablersInFile) (t : String) : List (Int × Int) :=
  match alistGet t d.disablers with
  | none => []
  | some dl => dl.lines

/-! ### Concrete and parametric documents used to settle the claims -/

/-- A wildcard `off` comment token at column 0. -/
def offTok0 : RToken := ⟨.COMMENT, "# robotidy: off".data, 0⟩

/-- An indentation separator token. -/
def sepTok : RToken := ⟨.SEPARATOR, "    ".data, 0⟩

/-- A wildcard `off` comment token at column 4 (an indented comment line). -/
def offTok4 : RToken := ⟨.COMMENT, "# robotidy: off".data, 4⟩

/-- Document family for claim C1: the first top-level section is a pure
comment section spanning lines `1..e1` whose single comment (line `d`,
column 0) is a wildcard Disable; a second section follows with a header on
line `h2` and one statement spanning `a..b`. -/
def c1Doc (d e1 h2 a b fe : Int) : RFile :=
  ⟨[ .block .commentSection [ .stmt .comment [offTok0] d d ] 1 e1,
     .block .section [ .stmt .sectionHeader [] h2 h2, .stmt .other [] a b ] h2 fe ],
   fe⟩

/-- Document family for claim C2: a section (header line 1) holding a test
case (header line 2) whose body is a `FOR` block on lines `3..ef` — header
line 3, an indented full-line comment `c` at column `cc` on line `d`, and
the loop's `END` statement on line `ef` — followed by a sibling statement
spanning `a..b` and a sibling `FOR` block on lines `f2..ef2` containing a
statement spanning `a2..b2`. -/
def c2Doc (cc d ef a b f2 ef2 a2 b2 fe : Int) (c : List Char) : RFile :=
  ⟨[ .block .section
      [ .stmt .sectionHeader [] 1 1,
        .block .testCase
          [ .stmt .other [] 2 2,
            .block .forBlock
              [ .stmt .other [] 3 3,
                .stmt .comment [sepTok, ⟨.COMMENT, c, cc⟩] d d,
                .stmt .other [] ef ef ] 3 ef,
            .stmt .other [] a b,
            .block .forBlock
              [ .stmt .other [] f2 f2, .stmt .other [] a2 b2 ] f2 ef2 ]
          2 ef2 ]
      1 fe ],
   fe⟩

/-- Concrete counterexample document for claim C2: the same shape as
`c2Doc` but with the full-line comment at column 0 (line 4) inside the
`FOR` block (lines 3..7) of a test case; a sibling statement on line 8
follows the loop; the section spans lines 1..10. -/
def c2Doc0 : RFile :=
  ⟨[ .block .section
      [ .stmt .sectionHeader [] 1 1,
        .block .testCase
          [ .stmt .other [] 2 2,
            .block .forBlock
              [ .stmt .other [] 3 3,
                .stmt .comment [offTok0] 4 4,
                .stmt .other [] 7 7 ] 3 7,
            .stmt .other [] 8 8 ]
          2 9 ]
      1 10 ],
   10⟩

/-- Concrete document for claim C3: a test case holding a
`TRY`/`EXCEPT`/`FINALLY` construct —

```
*** Test Cases ***        line 1  (section header)
Test                      line 2  (test case header)
    TRY                   line 3
        # robotidy: off   line 4  (indented full-line comment)
        Log    a          line 5
    EXCEPT                line 6
        Log    b          line 7
    FINALLY               line 8
        # robotidy: off   line 9  (indented full-line comment)
    END                   line 10
```

Per the parser's semantics, the head `Try` node's `end_lineno` is the line
of the last statement in its subtree — the `END` on line 10 — since the
`next` chain and the `end` statement are its fields; the `EXCEPT` branch's
subtree ends at line 9, as does the `FINALLY` branch's. -/
def c3Doc : RFile :=
  ⟨[ .block .section
      [ .stmt .sectionHeader [] 1 1,
        .block .testCase
          [ .stmt .other [] 2 2,
            .tryB
              [ .stmt .comment [sepTok, ⟨.COMMENT, "# robotidy: off".data, 8⟩] 4 4,
                .stmt .other [] 5 5 ]
              (some (.tryB [ .stmt .other [] 7 7 ]
                (some (.tryB
                  [ .stmt .comment [sepTok, ⟨.COMMENT, "# robotidy: off".data, 8⟩] 9 9 ]
                  none 8 9))
                6 9))
              3 10 ]
          2 10 ]
      1 10 ],
   10⟩

/-- A 20-line document with no directives: one section (header line 1)
holding a test case (header line 2) whose statements span lines 3..20. -/
def win20Doc : RFile :=
  ⟨[ .block .section
      [ .stmt .sectionHeader [] 1 1,
        .block .testCase
          [ .stmt .other [] 2 2, .stmt .other [] 3 12, .stmt .other [] 13 20 ]
          2 20 ]
      1 20 ],
   20⟩

/-- Directive text family for claim C8: `k` spaces, `#`, an optional
single space, `robotidy:`, an optional single space, `off`. -/
def directiveText (k : Nat) (a b : Bool) : List Char :=
  List.replicate k ' ' ++
    '#' :: ((if a then [' '] else []) ++ "robotidy:".data ++
      (if b then [' '] else []) ++ "off".data)

/-! ### General lemmas about the registry -/

theorem alistGet_alistSet (k t : String) (v : α) (l : List (String × α)) :
    alistGet t (alistSet k v l) = if k = t then some v else alistGet t l := by
  induction l with
  | nil => simp only [alistSet, alistGet]
  | cons hd tl ih =>
    obtain ⟨k', v'⟩ := hd
    simp only [alistSet]
    by_cases hk : k' = k
    · subst hk
      simp only [if_pos rfl, alistGet]
      by_cases ht : k' = t <;> simp [ht]
    · rw [if_neg hk]
      simp only [alistGet]
      by_cases ht : k' = t
      · rw [if_pos ht, if_pos ht, if_neg (fun h : k = t => hk (ht.trans h.symm))]
      · rw [if_neg ht, if_neg ht, ih]

theorem lines_file_level_flag (e : DisabledLines) (fl : Bool) :
    (if fl then { e with disabled_whole := fl } else e).lines = e.lines := by
  cases fl <;> rfl

theorem linesOf_add_disabler (d : DisablersInFile) (tr : String) (s e : Int)
    (fl : Bool) (t : String) :
    linesOf (d.add_disabler tr s e fl) t =
      linesOf d t ++ (if tr = t then [(s, e)] else []) := by
  unfold linesOf DisablersInFile.add_disabler
  simp only [alistGet_alistSet]
  by_cases ht : tr = t
  · subst ht
    simp only [if_pos rfl, lines_file_level_flag, DisabledLines.add_disabler]
    cases h : alistGet tr d.disablers with
    | none => cases fl <;> simp [h, DisabledLines.init]
    | some dl => cases fl <;> simp [h]
  · simp [ht]

theorem scope_add_disabler (d : DisablersInFile) (tr : String) (s e : Int) (fl : Bool) :
    (d.add_disabler tr s e fl).start_line = d.start_line ∧
    (d.add_disabler tr s e fl).end_line = d.end_line := by
  constructor <;> rfl

/-- The fold performed by the inline branch for one `off` directive: the
scope stack is untouched. -/
theorem inline_fold_scope (ts : List String) (v : VState) (l e : Int) :
    (ts.foldl (fun v t => { v with disablers := v.disablers.add_disabler t l e false }) v).disablers_in_scope
      = v.disablers_in_scope := by
  induction ts generalizing v with
  | nil => rfl
  | cons hd tl ih => simpa using ih _

/-- The fold performed by the inline branch for one `off` directive: each
target named by the directive receives exactly the statement's own interval,
once per occurrence; no other target's list changes. -/
theorem inline_fold_lines (ts : List String) (v : VState) (l e : Int) (t : String) :
    linesOf (ts.foldl (fun v t' => { v with disablers := v.disablers.add_disabler t' l e false }) v).disablers t
      = linesOf v.disablers t ++ (ts.filter (fun t' => t' = t)).map (fun _ => (l, e)) := by
  induction ts generalizing v with
  | nil => simp
  | cons hd tl ih =>
    simp only [List.foldl_cons, ih, List.filter_cons]
    by_cases h : hd = t
    · subst h
      simp [linesOf_add_disabler]
    · simp [linesOf_add_disabler, h]

/-- A statement whose comment directives are all `on` (or unrecognized)
leaves the state untouched in the inline branch. -/
theorem inlineComments_no_off (v : VState) (cs : List RToken) (l e : Int)
    (h : ∀ c ∈ cs, (get_disabler c.value).all (fun m => m.disabler != "off") = true) :
    inlineComments v cs l e = v := by
  induction cs generalizing v with
  | nil => rfl
  | cons c rest ih =>
    have hc := h c (by simp)
    have hrest : ∀ c' ∈ rest, (get_disabler c'.value).all (fun m => m.disabler != "off") = true :=
      fun c' hmem => h c' (by simp [hmem])
    unfold inlineComments
    simp only [List.foldl_cons]
    cases hm : get_disabler c.value with
    | none =>
      have := ih v hrest
      unfold inlineComments at this
      simpa [hm] using this
    | some m =>
      have hne : ¬ (m.disabler = "off") := by
        simp [hm, Option.all] at hc
        simpa using hc
      have := ih v hrest
      unfold inlineComments at this
      simpa [hm, hne] using this

/-! ### General lemmas about the full-match interval scan -/

/-- On a list sorted by start line, the full-match scan finds every node
that is wholly contained in some interval: the first interval whose end
covers the node cannot start later than a containing interval does. -/
theorem scanFull_of_mem (lines : List (Int × Int)) (nl nel : Int)
    (hs : List.Pairwise (fun p q : Int × Int => p.1 ≤ q.1) lines)
    (p : Int × Int) (hp : p ∈ lines) (h1 : p.1 ≤ nl) (h2 : nel ≤ p.2) :
    scanFull lines nl nel = true := by
  induction lines with
  | nil => cases hp
  | cons hd tl ih =>
    obtain ⟨s, e⟩ := hd
    rw [List.pairwise_cons] at hs
    unfold scanFull
    by_cases hcov : nel ≤ e
    · rw [if_pos hcov]
      rcases List.mem_cons.mp hp with heq | hmem
      · subst heq
        exact decide_eq_true h1
      · exact decide_eq_true (le_trans (hs.1 p hmem) h1)
    · rw [if_neg hcov]
      rcases List.mem_cons.mp hp with heq | hmem
      · subst heq
        exact absurd h2 hcov
      · exact ih hs.2 hmem

/-- The full-match scan only answers `true` at an interval that wholly
contains the node. -/
theorem scanFull_true_mem (lines : List (Int × Int)) (nl nel : Int)
    (h : scanFull lines nl nel = true) :
    ∃ p ∈ lines, p.1 ≤ nl ∧ nel ≤ p.2 := by
  induction lines with
  | nil => exact Bool.noConfusion (show false = true from h)
  | cons hd tl ih =>
    obtain ⟨s, e⟩ := hd
    unfold scanFull at h
    by_cases hcov : nel ≤ e
    · rw [if_pos hcov] at h
      exact ⟨(s, e), by simp, of_decide_eq_true h, hcov⟩
    · rw [if_neg hcov] at h
      obtain ⟨p, hmem, h1, h2⟩ := ih h
      exact ⟨p, by simp [hmem], h1, h2⟩

/-- The wildcard `off` comment text as the recognizer sees it. -/
theorem gd_off0 :
    get_disabler ['#', ' ', 'r', 'o', 'b', 'o', 't', 'i', 'd', 'y', ':', ' ', 'o', 'f', 'f']
      = some ⟨"off", false, []⟩ := by decide

/-- A match with no `=` resolves to the wildcard target list. -/
theorem gdt_wild : get_disabler_transformers ⟨"off", false, []⟩ = [ALL_TRANSFORMERS] := by
  decide

/-- Leading spaces are consumed by the pattern's `\s*`. -/
theorem dropWhile_replicate_space (k : Nat) (l : List Char) :
    (List.replicate k ' ' ++ l).dropWhile isWS = l.dropWhile isWS := by
  induction k with
  | zero => simp
  | succ n ih => simp [List.replicate_succ, List.dropWhile_cons, isWS, ih]

/-! ### Claim C1 -/

/-- Claim C1 states that a wildcard Disable in a leading pure-comment
section makes `is_node_disabled` answer `true` for every target on every
node regardless of position.  This refutes it: on the concrete document
`c1Doc 1 2 3 4 5 6` (comment section on lines 1–2 holding the wildcard
`off`, second section with a statement on lines 4–5) the whole-file flag is
set — `is_disabled_in_file` answers `true` — yet the node query for the
statement after the comment section answers `false`, because
`DisablersInFile.is_node_disabled` consults only the interval lists, never
the whole-file flag, and the registered interval `(1, 2)` ends with the
comment section. -/
theorem C1_counterexample :
    (runRegisterDisablers none none (c1Doc 1 2 3 4 5 6)).disablers.is_disabled_in_file
        "all" = true
  ∧ (runRegisterDisablers none none (c1Doc 1 2 3 4 5 6)).disablers.is_node_disabled
        "all" ⟨4, 5⟩ true = false := by
  exact ⟨by decide, by decide⟩

/-- Claim C1, amended: a wildcard Disable in a leading pure-comment section
(line `d`, section ending at `e1`, no Enable before the section closes)
sets the whole-file flag, so `is_disabled_in_file` answers `true` for every
target; the node query answers `true` only for nodes wholly inside the
registered interval `(d, e1)` and `false` for any target on a node that
starts after the comment section. -/
theorem C1_thm (d e1 h2 a b fe x y : Int) (t : String)
    (hd : 0 < d) (hx : d ≤ x) (hy : max x y ≤ e1) (ha : e1 < a) :
    (runRegisterDisablers none none (c1Doc d e1 h2 a b fe)).disablers.is_disabled_in_file t
        = true
  ∧ (runRegisterDisablers none none (c1Doc d e1 h2 a b fe)).disablers.is_node_disabled
        "all" ⟨x, y⟩ true = true
  ∧ (runRegisterDisablers none none (c1Doc d e1 h2 a b fe)).disablers.is_node_disabled
        t ⟨a, b⟩ true = false := by
  have hd' : ¬ (d = 0) := by omega
  have hrun : (runRegisterDisablers none none (c1Doc d e1 h2 a b fe)).disablers
      = ⟨none, none, fe, [("all", ⟨none, none, fe, [(d, e1)], [], true⟩)]⟩ := by
    simp [runRegisterDisablers, visitFile, visitSections, visitNode, visitList, visitStmt,
      c1Doc, offTok0, pushFrame, closeDisabler, applyFullLine, frameAt, setFrameAt,
      alistGet, alistSet, gd_off0, gdt_wild, commentTokens, is_line_start,
      DisablersInFile.parse_global_disablers, DisablersInFile.init, DisabledLines.init,
      DisabledLines.parse_global_disablers, optTruthy, DisablersInFile.allEntry,
      DisablersInFile.add_disabler, DisabledLines.add_disabler,
      DisablersInFile.sort_disablers, DisabledLines.sort_disablers, insertByStart,
      isCommentSection, sectionHeaderComments, inlineComments, hd',
      ALL_TRANSFORMERS]
  rw [hrun]
  have hna : ¬ (max a b ≤ e1) := fun hc => absurd ((le_max_left a b).trans hc) (not_le.mpr ha)
  refine ⟨?_, ?_, ?_⟩
  · simp [DisablersInFile.is_disabled_in_file, DisablersInFile.allEntry, alistGet,
      ALL_TRANSFORMERS]
  · simp [DisablersInFile.is_node_disabled, DisablersInFile.allEntry, alistGet,
      DisabledLines.is_node_disabled, scanFull, hy, hx, ALL_TRANSFORMERS]
  · by_cases hta : "all" = t <;>
      simp [DisablersInFile.is_node_disabled, DisablersInFile.allEntry, alistGet,
        DisabledLines.is_node_disabled, scanFull, hna, hta, ALL_TRANSFORMERS]

/-- Witness for C1's amended theorem at concrete lines. -/
theorem C1_witness :
    (runRegisterDisablers none none (c1Doc 1 2 3 4 5 6)).disablers.is_disabled_in_file
        "SomeRule" = true
  ∧ (runRegisterDisablers none none (c1Doc 1 2 3 4 5 6)).disablers.is_node_disabled
        "all" ⟨1, 2⟩ true = true
  ∧ (runRegisterDisablers none none (c1Doc 1 2 3 4 5 6)).disablers.is_node_disabled
        "SomeRule" ⟨4, 5⟩ true = false :=
  C1_thm 1 2 3 4 5 6 1 2 "SomeRule" (by decide) (by decide) (by decide) (by decide)

/-! ### Claim C2 -/

/-- Claim C2 states that a full-line Disable inside a nested block always
auto-closes at that block's end line and never leaks into following
siblings.  This refutes it: in `c2Doc0` the full-line wildcard `off` on
line 4 sits inside the `FOR` block (lines 3–7) of a test case, but because
the comment starts at column 0 the traverser records it in the outermost
open frame (index `0`) rather than the innermost; the interval therefore
closes at the section's end line 10, and the sibling statement on line 8
after the loop is reported disabled. -/
theorem C2_counterexample :
    linesOf (runRegisterDisablers none none c2Doc0).disablers "all" = [(4, 10)]
  ∧ (runRegisterDisablers none none c2Doc0).disablers.is_node_disabled "all" ⟨8, 8⟩ true
      = true := by
  exact ⟨by decide, by decide⟩

/-- Claim C2, amended: an indented (not column-zero) full-line Disable
comment on line `d` inside a nested `FOR` block ending at line `ef`, with
no matching Enable, registers for its target exactly the interval
`(d, ef)`, and node queries for that target on a sibling statement and on
a node inside a sibling block that follow the loop answer `false`.  (A
column-zero comment is instead recorded in the outermost open frame and
closes at the enclosing section's end.) -/
theorem C2_thm (cc d ef a b f2 ef2 a2 b2 fe : Int) (c : List Char) (m : DisablerMatch)
    (t : String)
    (hcc : cc ≠ 0) (hd : 0 < d)
    (hm : get_disabler c = some m) (hoff : m.disabler = "off")
    (ht : get_disabler_transformers m = [t])
    (ha : ef < a) (ha2 : ef < a2) :
    linesOf (runRegisterDisablers none none (c2Doc cc d ef a b f2 ef2 a2 b2 fe c)).disablers t
        = [(d, ef)]
  ∧ (runRegisterDisablers none none
        (c2Doc cc d ef a b f2 ef2 a2 b2 fe c)).disablers.is_node_disabled t ⟨a, b⟩ true
      = false
  ∧ (runRegisterDisablers none none
        (c2Doc cc d ef a b f2 ef2 a2 b2 fe c)).disablers.is_node_disabled t ⟨a2, b2⟩ true
      = false := by
  have hd' : ¬ (d = 0) := by omega
  have hcc' : ¬ (cc = 0) := hcc
  have hna : ¬ (max a b ≤ ef) := fun hc => absurd ((le_max_left a b).trans hc) (not_le.mpr ha)
  have hna2 : ¬ (max a2 b2 ≤ ef) :=
    fun hc => absurd ((le_max_left a2 b2).trans hc) (not_le.mpr ha2)
  by_cases hta : "all" = t
  · subst hta
    have hrun : (runRegisterDisablers none none
          (c2Doc cc d ef a b f2 ef2 a2 b2 fe c)).disablers
        = ⟨none, none, fe, [("all", ⟨none, none, fe, [(d, ef)], [], false⟩)]⟩ := by
      simp [runRegisterDisablers, visitFile, visitSections, visitNode, visitList, visitStmt,
        c2Doc, sepTok, pushFrame, closeDisabler, applyFullLine, frameAt, setFrameAt,
        alistGet, alistSet, hm, hoff, ht, commentTokens, is_line_start,
        DisablersInFile.parse_global_disablers, DisablersInFile.init, DisabledLines.init,
        DisabledLines.parse_global_disablers, optTruthy, DisablersInFile.allEntry,
        DisablersInFile.add_disabler, DisabledLines.add_disabler,
        DisablersInFile.sort_disablers, DisabledLines.sort_disablers, insertByStart,
        isCommentSection, sectionHeaderComments, inlineComments, hd', hcc',
        ALL_TRANSFORMERS]
    rw [hrun]
    refine ⟨?_, ?_, ?_⟩
    · simp [linesOf, alistGet]
    · simp [DisablersInFile.is_node_disabled, DisablersInFile.allEntry, alistGet,
        DisabledLines.is_node_disabled, scanFull, hna, ALL_TRANSFORMERS]
    · simp [DisablersInFile.is_node_disabled, DisablersInFile.allEntry, alistGet,
        DisabledLines.is_node_disabled, scanFull, hna2, ALL_TRANSFORMERS]
  · have hrun : (runRegisterDisablers none none
          (c2Doc cc d ef a b f2 ef2 a2 b2 fe c)).disablers
        = ⟨none, none, fe, [("all", ⟨none, none, fe, [], [], false⟩),
            (t, ⟨none, none, fe, [(d, ef)], [], false⟩)]⟩ := by
      simp [runRegisterDisablers, visitFile, visitSections, visitNode, visitList, visitStmt,
        c2Doc, sepTok, pushFrame, closeDisabler, applyFullLine, frameAt, setFrameAt,
        alistGet, alistSet, hm, hoff, ht, commentTokens, is_line_start,
        DisablersInFile.parse_global_disablers, DisablersInFile.init, DisabledLines.init,
        DisabledLines.parse_global_disablers, optTruthy, DisablersInFile.allEntry,
        DisablersInFile.add_disabler, DisabledLines.add_disabler,
        DisablersInFile.sort_disablers, DisabledLines.sort_disablers, insertByStart,
        isCommentSection, sectionHeaderComments, inlineComments, hd', hcc', hta,
        ALL_TRANSFORMERS]
    rw [hrun]
    refine ⟨?_, ?_, ?_⟩
    · simp [linesOf, alistGet, hta]
    · simp [DisablersInFile.is_node_disabled, DisablersInFile.allEntry, alistGet,
        DisabledLines.is_node_disabled, scanFull, hna, hta, ALL_TRANSFORMERS]
    · simp [DisablersInFile.is_node_disabled, DisablersInFile.allEntry, alistGet,
        DisabledLines.is_node_disabled, scanFull, hna2, hta, ALL_TRANSFORMERS]

/-- Witness for C2's amended theorem: an indented `off=Foo` comment on
line 4 inside a `FOR` block ending at line 7; the sibling statement (line
8) and the statement in the following sibling loop (line 10) are not
disabled for `Foo`. -/
theorem C2_witness :
    linesOf (runRegisterDisablers none none
        (c2Doc 8 4 7 8 8 9 11 10 10 12 ("# robotidy: off=Foo".data))).disablers "Foo"
      = [(4, 7)]
  ∧ (runRegisterDisablers none none
        (c2Doc 8 4 7 8 8 9 11 10 10 12 ("# robotidy: off=Foo".data))).disablers.is_node_disabled
        "Foo" ⟨8, 8⟩ true = false
  ∧ (runRegisterDisablers none none
        (c2Doc 8 4 7 8 8 9 11 10 10 12 ("# robotidy: off=Foo".data))).disablers.is_node_disabled
        "Foo" ⟨10, 10⟩ true = false :=
  C2_thm 8 4 7 8 8 9 11 10 10 12 ("# robotidy: off=Foo".data) ⟨"off", true, "Foo".data⟩
    "Foo" (by decide) (by decide) (by decide) rfl (by decide) (by decide) (by decide)

/-! ### Claim C3 -/

/-- Claim C3 states that `visit_Try` opens and closes one frame per branch,
closes a non-final branch's pending Disable at one line before the next
branch's start, and never lets an auto-closed interval cover a sibling
branch's lines.  The code diverges: the head branch is handled twice — once
closing at the head node's `end_lineno`, which is the construct's final
`END` line and covers every sibling branch, and once (in the first loop
iteration) closing at `next.lineno - 1` — and the final branch's body is
never visited at all, because the loop tests `tail.next` before visiting.
On `c3Doc` (TRY 3–5 with an indented wildcard `off` on line 4, EXCEPT 6–7,
FINALLY 8–9 with an `off` on line 9, END 10) the wildcard registry receives
both `(4, 10)` — covering the sibling EXCEPT and FINALLY branches — and
`(4, 5)`, and nothing at all for the FINALLY branch's own directive; line 7
inside the sibling EXCEPT branch is reported disabled. -/
theorem C3_thm :
    linesOf (runRegisterDisablers none none c3Doc).disablers "all" = [(4, 10), (4, 5)]
  ∧ (runRegisterDisablers none none c3Doc).disablers.is_node_disabled "all" ⟨7, 7⟩ true
      = true := by
  exact ⟨by decide, by decide⟩

/-! ### Claim C8 -/

/-- Claim C8 states the recognizer tolerates arbitrary amounts of
whitespace around the keyword, the action and the target names.  This
refutes it: `# robotidy: off` is recognized, yet the same text with one
more space before the keyword is rejected — the pattern's `\s?` after `#`
admits at most one whitespace character. -/
theorem C8_counterexample :
    get_disabler ("# robotidy: off".data) = some ⟨"off", false, []⟩
  ∧ get_disabler ("#  robotidy: off".data) = none := by
  exact ⟨by decide, by decide⟩

/-- Claim C8, amended: whitespace tolerance is asymmetric.  Arbitrary
whitespace is accepted only before the `#`; after the `#` and after
`robotidy:` at most one whitespace character is accepted; at most one
space may separate the action from `=`; and inside the target list
arbitrary whitespace around each name is stripped.  Two or more spaces
before `=` still match but turn the directive into the wildcard case. -/
theorem C8_thm :
    (∀ (k : Nat) (a b : Bool),
        get_disabler (directiveText k a b) = some ⟨"off", false, []⟩)
  ∧ (get_disabler ("# robotidy: off=  Foo  ,  Bar  ".data)).map get_disabler_transformers
      = some ["Foo", "Bar"]
  ∧ (get_disabler ("# robotidy: off=Foo,Bar".data)).map get_disabler_transformers
      = some ["Foo", "Bar"]
  ∧ get_disabler ("#  robotidy: off".data) = none
  ∧ get_disabler ("# robotidy:  off".data) = none
  ∧ (get_disabler ("# robotidy: off =Foo".data)).map get_disabler_transformers
      = some ["Foo"]
  ∧ (get_disabler ("# robotidy: off  =Foo".data)).map get_disabler_transformers
      = some [ALL_TRANSFORMERS] := by
  refine ⟨?_, by decide, by decide, by decide, by decide, by decide, by decide⟩
  intro k a b
  have hne : (directiveText k a b).isEmpty = false := by
    cases k <;> simp [directiveText, List.replicate]
  have h1 : (directiveText k a b).dropWhile isWS
      = '#' :: ((if a then [' '] else []) ++ "robotidy:".data ++
          (if b then [' '] else []) ++ "off".data) := by
    rw [directiveText, dropWhile_replicate_space]
    simp [List.dropWhile_cons, isWS]
  simp only [get_disabler, hne, Bool.false_eq_true, if_false]
  unfold disablerPatternMatch
  rw [h1]
  cases a <;> cases b <;> decide

/-! ### Claim C4 -/

/-- Claim C4 states that two overlapping same-target intervals with
different end lines in a finalized (start-sorted) list can make the
full-match scan miss a node wholly contained in one of them.  This refutes
the claim: no interval list sorted by start line, overlapping or not, can
make `is_node_disabled` answer `false` for a wholly contained node — the
first interval whose end covers the node never starts after a containing
interval does. -/
theorem C4_counterexample :
    ¬ ∃ (d : DisabledLines) (node : NodeRef),
        List.Pairwise (fun p q : Int × Int => p.1 ≤ q.1) d.lines ∧
        (∃ p ∈ d.lines, ∃ q ∈ d.lines, p.1 ≤ q.2 ∧ q.1 ≤ p.2 ∧ p.2 ≠ q.2) ∧
        (∃ p ∈ d.lines, p.1 ≤ node.lineno ∧ max node.lineno node.end_lineno ≤ p.2) ∧
        d.is_node_disabled node true = false := by
  rintro ⟨d, node, hs, -, ⟨p, hp, h1, h2⟩, hfalse⟩
  have hne : d.lines.isEmpty = false := by
    cases hl : d.lines with
    | nil => rw [hl] at hp; cases hp
    | cons x xs => rfl
  have hscan : scanFull d.lines node.lineno (max node.lineno node.end_lineno) = true :=
    scanFull_of_mem d.lines _ _ hs p hp h1 h2
  simp [DisabledLines.is_node_disabled, hne, hscan] at hfalse

/-- Claim C4, amended: on an interval list sorted by start line, the
full-match query is exactly whole containment — it returns `true` if and
only if some interval of the list wholly contains the node, so the
scan-order limitation the claim describes cannot produce an incorrect
negative answer. -/
theorem C4_thm (d : DisabledLines) (node : NodeRef)
    (hs : List.Pairwise (fun p q : Int × Int => p.1 ≤ q.1) d.lines) :
    d.is_node_disabled node true = true
      ↔ ∃ p ∈ d.lines, p.1 ≤ node.lineno ∧ max node.lineno node.end_lineno ≤ p.2 := by
  by_cases hne : d.lines.isEmpty = true
  · rw [List.isEmpty_iff] at hne
    simp [DisabledLines.is_node_disabled, hne]
  · rw [Bool.not_eq_true] at hne
    constructor
    · intro h
      simp only [DisabledLines.is_node_disabled, hne, Bool.false_eq_true, if_false,
        if_true] at h
      exact scanFull_true_mem _ _ _ h
    · rintro ⟨p, hp, h1, h2⟩
      simp only [DisabledLines.is_node_disabled, hne, Bool.false_eq_true, if_false, if_true]
      exact scanFull_of_mem _ _ _ hs p hp h1 h2

/-- Witness for C4: a sorted list with two overlapping intervals of
different end lines, and a node contained in the shorter one, evaluated
through the amended theorem. -/
theorem C4_witness :
    (⟨none, none, 0, [(1, 10), (2, 3)], [], false⟩ : DisabledLines).is_node_disabled
        ⟨2, 3⟩ true = true :=
  (C4_thm ⟨none, none, 0, [(1, 10), (2, 3)], [], false⟩ ⟨2, 3⟩ (by decide)).mpr
    ⟨(1, 10), by decide, by decide, by decide⟩

/-! ### Claim C5 -/

/-- Claim C5: a non-comment statement carrying an inline `off` directive
self-closes — the scope stack is untouched (no pending state is created in
any frame), and each target named by the directive receives exactly the
interval spanning the statement's own start and end line; no other
target's interval list changes. -/
theorem C5_thm (v : VState) (tokens : List RToken) (tok : RToken) (m : DisablerMatch)
    (l e : Int)
    (hc : commentTokens tokens = [tok])
    (hd : get_disabler tok.value = some m)
    (hoff : m.disabler = "off") :
    (visitNode v (.stmt .other tokens l e)).disablers_in_scope = v.disablers_in_scope
  ∧ ∀ t, linesOf (visitNode v (.stmt .other tokens l e)).disablers t
      = linesOf v.disablers t
        ++ ((get_disabler_transformers m).filter (fun t' => t' = t)).map (fun _ => (l, e)) := by
  have hvn : visitNode v (.stmt .other tokens l e)
      = (get_disabler_transformers m).foldl
          (fun v t => { v with disablers := v.disablers.add_disabler t l e false }) v := by
    show visitStmt v .other tokens l e = _
    simp only [visitStmt, inlineComments, hc, List.foldl_cons, List.foldl_nil, hd, hoff,
      if_pos rfl, if_true]
  rw [hvn]
  exact ⟨inline_fold_scope _ _ _ _, fun t => inline_fold_lines _ _ _ _ _⟩

/-- Witness for C5: a `Log` statement on lines 7–9 with a trailing
`off=Foo` comment registers exactly the interval `(7, 9)` for `Foo` and
leaves the scope stack as it was. -/
theorem C5_witness :
    (visitNode ⟨none, none, DisablersInFile.init none none 0, [[("all", 0)]], false⟩
        (.stmt .other [⟨.DATA, "Log".data, 4⟩, ⟨.COMMENT, "# robotidy: off=Foo".data, 11⟩]
          7 9)).disablers_in_scope = [[("all", 0)]]
  ∧ linesOf (visitNode ⟨none, none, DisablersInFile.init none none 0, [[("all", 0)]], false⟩
        (.stmt .other [⟨.DATA, "Log".data, 4⟩, ⟨.COMMENT, "# robotidy: off=Foo".data, 11⟩]
          7 9)).disablers "Foo" = [(7, 9)] := by
  have h := C5_thm ⟨none, none, DisablersInFile.init none none 0, [[("all", 0)]], false⟩
    [⟨.DATA, "Log".data, 4⟩, ⟨.COMMENT, "# robotidy: off=Foo".data, 11⟩]
    ⟨.COMMENT, "# robotidy: off=Foo".data, 11⟩ ⟨"off", true, "Foo".data⟩ 7 9
    (by decide) (by decide) rfl
  refine ⟨h.1, ?_⟩
  rw [h.2 "Foo"]
  decide

/-! ### Claim C6 -/

/-- Claim C6: with a processing window `start_line = 5`, `end_line = 10`
on a 20-line document, the wildcard registry receives exactly the
synthesized intervals `(1, 4)` and `(11, 20)`; a one-line node is reported
disabled exactly when its line lies in 1–4 or 11–20; with `start_line = 1`
the head interval is omitted and with `end_line = 20` the tail interval is
omitted; and a full traversal of a directive-free 20-line document shows
the same intervals and query answers through the public API. -/
theorem C6_thm :
    ((DisabledLines.init (some 5) (some 10) 20).parse_global_disablers).lines = [(1, 4), (11, 20)]
  ∧ (∀ l : Int,
      ((DisabledLines.init (some 5) (some 10) 20).parse_global_disablers).is_node_disabled
          ⟨l, l⟩ true = true
        ↔ ((1 ≤ l ∧ l ≤ 4) ∨ (11 ≤ l ∧ l ≤ 20)))
  ∧ ((DisabledLines.init (some 1) (some 10) 20).parse_global_disablers).lines = [(11, 20)]
  ∧ ((DisabledLines.init (some 5) (some 20) 20).parse_global_disablers).lines = [(1, 4)]
  ∧ linesOf (runRegisterDisablers (some 5) (some 10) win20Doc).disablers "all" = [(1, 4), (11, 20)]
  ∧ (runRegisterDisablers (some 5) (some 10) win20Doc).disablers.is_node_disabled "all"
      ⟨3, 3⟩ true = true
  ∧ (runRegisterDisablers (some 5) (some 10) win20Doc).disablers.is_node_disabled "all"
      ⟨15, 15⟩ true = true
  ∧ (runRegisterDisablers (some 5) (some 10) win20Doc).disablers.is_node_disabled "all"
      ⟨7, 8⟩ true = false := by
  refine ⟨by decide, ?_, by decide, by decide, by decide, by decide, by decide, by decide⟩
  intro l
  have h : (DisabledLines.init (some 5) (some 10) 20).parse_global_disablers
      = ⟨some 5, some 10, 20, [(1, 4), (11, 20)], [], false⟩ := by decide
  rw [h]
  simp only [DisabledLines.is_node_disabled, scanFull, max_self]
  norm_num
  split_ifs with h1 <;> omega

/-! ### Claim C7 -/

/-- Claim C7 states that `off=` and `off=,` both resolve to the wildcard.
This refutes it for `off=,`: the captured transformers group is the
non-empty string `,`, so the source splits and trims it, producing the
empty target list — a no-op — rather than the wildcard. -/
theorem C7_counterexample :
    (get_disabler ("# robotidy: off=,".data)).map get_disabler_transformers = some [] := by
  decide

/-- Claim C7, amended: a recognized directive resolves to the wildcard
when it has no `=` or when the captured transformers group is empty (for
example `off` and `off=`); but a directive whose non-empty captured group
trims to zero names (for example `off=,` or `off= `) resolves to the empty
target set, not the wildcard. -/
theorem C7_thm :
    (∀ m : DisablerMatch, (m.transformers = [] ∨ m.matched_eq = false) →
        get_disabler_transformers m = [ALL_TRANSFORMERS])
  ∧ (get_disabler ("# robotidy: off".data)).map get_disabler_transformers
      = some [ALL_TRANSFORMERS]
  ∧ (get_disabler ("# robotidy: off=".data)).map get_disabler_transformers
      = some [ALL_TRANSFORMERS]
  ∧ (get_disabler ("# robotidy: off=,".data)).map get_disabler_transformers = some []
  ∧ (get_disabler ("# robotidy: off= ".data)).map get_disabler_transformers = some [] := by
  refine ⟨?_, by decide, by decide, by decide, by decide⟩
  intro m hm
  rcases hm with h | h <;> simp [get_disabler_transformers, h]

/-- Witness for C7: a match with an empty captured group resolves to the
wildcard. -/
theorem C7_witness : get_disabler_transformers ⟨"off", true, []⟩ = [ALL_TRANSFORMERS] :=
  C7_thm.1 ⟨"off", true, []⟩ (Or.inl rfl)

/-! ### Claim C9 -/

/-- Claim C9: on a non-comment statement, directives other than `off`
(in particular a trailing `# robotidy: on`) are complete no-ops — the
visit returns the state unchanged: no interval is registered, no frame is
touched, no flag changes. -/
theorem C9_thm (v : VState) (tokens : List RToken) (l e : Int)
    (h : ∀ tok ∈ commentTokens tokens,
        (get_disabler tok.value).all (fun m => m.disabler != "off") = true) :
    visitNode v (.stmt .other tokens l e) = v :=
  inlineComments_no_off v (commentTokens tokens) l e h

/-- Witness for C9: a statement with a trailing `# robotidy: on` comment,
visited in a state with an open wildcard disabler, changes nothing. -/
theorem C9_witness :
    visitNode ⟨none, none, DisablersInFile.init none none 0, [[("all", 3)]], false⟩
        (.stmt .other [⟨.DATA, "Log".data, 4⟩, ⟨.COMMENT, "# robotidy: on".data, 11⟩] 7 7)
      = ⟨none, none, DisablersInFile.init none none 0, [[("all", 3)]], false⟩ :=
  C9_thm ⟨none, none, DisablersInFile.init none none 0, [[("all", 3)]], false⟩
    [⟨.DATA, "Log".data, 4⟩, ⟨.COMMENT, "# robotidy: on".data, 11⟩] 7 7 (by decide)

/-! ### Claim C10 -/

/-- Claim C10: a window with `end_line` set but `start_line` absent
synthesizes nothing (the registry is returned unchanged); a window with
`start_line = s > 0` and no `end_line` collapses to `[s, s]` — the head
interval `(1, s-1)` appears exactly when `s > 1` and the tail interval
`(s+1, file_end)` exactly when `s` is below the file end. -/
theorem C10_thm :
    (∀ (e fe : Int),
        (DisabledLines.init none (some e) fe).parse_global_disablers
          = DisabledLines.init none (some e) fe)
  ∧ (∀ (s fe : Int), 0 < s →
        ((DisabledLines.init (some s) none fe).parse_global_disablers).lines
          = (if 1 < s then [(1, s - 1)] else []) ++ (if s < fe then [(s + 1, fe)] else [])) := by
  constructor
  · intro e fe
    rfl
  · intro s fe hs
    have h0 : optTruthy (some s) = true := by
      simp only [optTruthy, bne_iff_ne, ne_eq]
      omega
    simp only [DisabledLines.parse_global_disablers, DisabledLines.init, h0, Bool.not_true,
      Bool.false_eq_true, if_false, optTruthy, Option.getD_some, DisabledLines.add_disabler]
    split_ifs <;> simp_all

/-- Witness for C10: `start_line = 5`, no `end_line`, on a 20-line file
synthesizes exactly `(1, 4)` and `(6, 20)`. -/
theorem C10_witness :
    ((DisabledLines.init (some 5) none 20).parse_global_disablers).lines = [(1, 4), (6, 20)] := by
  have h := C10_thm.2 5 20 (by decide)
  rw [h]
  decide

end Disablers
